import Mathlib

set_option maxRecDepth 8000

/-
Verification model of unpackAssignments.py.

Python strings are modelled as lists of characters (PStr).  All functions are
computable structural recursions so that concrete runs evaluate inside the
kernel.  Filesystem and archive primitives (makedirs, extract, rename, remove,
open) are modelled by recording the corresponding events in an explicit state;
file contents that the script reads are passed in as function parameters.
-/

abbrev PStr : Type := List Char

instance exceptDecEq {ε α : Type} [DecidableEq ε] [DecidableEq α] :
    DecidableEq (Except ε α) := fun a b =>
  match a, b with
  | Except.error e, Except.error f => decidable_of_iff (e = f) (by simp)
  | Except.error _, Except.ok _ => isFalse (by simp)
  | Except.ok _, Except.error _ => isFalse (by simp)
  | Except.ok x, Except.ok y => decidable_of_iff (x = y) (by simp)

/-- Convert a Lean string literal into the character-list model. -/
def pstr (s : String) : PStr := s.toList

/-- Python str.split(sep) for a one-character separator: the list of chunks
between occurrences of sep.  The result is always nonempty and its chunks are
sep-free. -/
def splitChar (sep : Char) : List Char → List (List Char)
  | [] => [[]]
  | c :: rest =>
    match splitChar sep rest with
    | [] => [[]]
    | r :: rs => if c = sep then [] :: r :: rs else (c :: r) :: rs

/-- Python list.index(x), as an Option: position of the first occurrence,
none when x is absent (where CPython raises ValueError). -/
def pyListIndex (x : PStr) : List PStr → Option Nat
  | [] => none
  | y :: ys => if y = x then some 0 else (pyListIndex x ys).map (fun n => n + 1)

/-- Python substring membership test, pat in s / s.find(pat) != -1. -/
def containsTok (pat : PStr) : PStr → Bool
  | [] => pat.isPrefixOf ([] : List Char)
  | c :: rest => pat.isPrefixOf (c :: rest) || containsTok pat rest

/-- Helper for replaceAll, structurally recursive on a fuel argument so that
the definition evaluates inside the kernel.  The fuel is the length of the
string, which bounds the number of recursive steps. -/
def replaceAllGo (pat : PStr) : Nat → PStr → PStr
  | _, [] => []
  | 0, l => l
  | Nat.succ fuel, c :: rest =>
    if pat.isPrefixOf (c :: rest) && !pat.isEmpty then
      replaceAllGo pat fuel (List.drop (pat.length - 1) rest)
    else
      c :: replaceAllGo pat fuel rest

/-- Python s.replace(pat, ''): remove all (leftmost, non-overlapping)
occurrences of pat from s.  Used with a nonempty pat throughout. -/
def replaceAll (pat : PStr) (l : PStr) : PStr := replaceAllGo pat l.length l

/-- Python l[-4:] == pat for a four-character pat (the new_fname[-4:] test at
line 211): the last four characters (the whole string when shorter) equal
pat. -/
def lastFourIs (pat : PStr) (l : PStr) : Bool := decide (l.drop (l.length - 4) = pat)

/-- Python l[:-4] (line 212): everything but the last four characters. -/
def pyDropLast4 (l : PStr) : PStr := l.take (l.length - 4)

/-- A parsed datetime.datetime value, as produced by datetime.strptime. -/
structure DateTime where
  year : Nat
  month : Nat
  day : Nat
  hour : Nat
  minute : Nat
  second : Nat
deriving DecidableEq

/-- CPython datetime comparison a < b: lexicographic on the fields. -/
def dtLt (a b : DateTime) : Bool :=
  decide (a.year < b.year ∨ (a.year = b.year ∧
    (a.month < b.month ∨ (a.month = b.month ∧
      (a.day < b.day ∨ (a.day = b.day ∧
        (a.hour < b.hour ∨ (a.hour = b.hour ∧
          (a.minute < b.minute ∨ (a.minute = b.minute ∧
            a.second < b.second))))))))))

def isLeap (y : Nat) : Bool := (y % 4 == 0 && y % 100 != 0) || y % 400 == 0

def daysInMonth (y m : Nat) : Nat :=
  if m = 2 then (if isLeap y then 29 else 28)
  else if m = 4 ∨ m = 6 ∨ m = 9 ∨ m = 11 then 30
  else 31

/-- The numeric value of a digit string. -/
def natOfDigits (l : PStr) : Nat := l.foldl (fun n c => n * 10 + (c.toNat - '0'.toNat)) 0

/-- A field of at most maxLen (ASCII) digits, as matched by the one- or
two-digit strptime directives. -/
def validField (l : PStr) (maxLen : Nat) : Bool :=
  !l.isEmpty && decide (l.length ≤ maxLen) && l.all Char.isDigit

/-- CPython datetime.strptime(t, '%Y-%m-%d-%H-%M-%S'):
exactly six dash-separated digit fields (the year exactly four digits, the
others one or two), with the ranges enforced by strptime together with the
datetime constructor (month 1-12, day 1-(length of month), hour 0-23,
minute/second 0-59, year at least MINYEAR = 1). -/
def parseBare (t : PStr) : Option DateTime :=
  match splitChar '-' t with
  | [ys, ms, ds, hs, ins, ss] =>
    if (decide (ys.length = 4) && ys.all Char.isDigit &&
        validField ms 2 && validField ds 2 && validField hs 2 &&
        validField ins 2 && validField ss 2) then
      let y := natOfDigits ys
      let m := natOfDigits ms
      let d := natOfDigits ds
      let h := natOfDigits hs
      let mi := natOfDigits ins
      let s := natOfDigits ss
      if 1 ≤ y ∧ 1 ≤ m ∧ m ≤ 12 ∧ 1 ≤ d ∧ d ≤ daysInMonth y m ∧
         h ≤ 23 ∧ mi ≤ 59 ∧ s ≤ 59 then
        some ⟨y, m, d, h, mi, s⟩
      else none
    else none
  | _ => none

/-- Timestamp-token parsing at lines 190-194: a token ending in '.txt' is
parsed with format '%Y-%m-%d-%H-%M-%S.txt' (equivalently, its first part must
be a valid bare timestamp), any other token with the bare format
'%Y-%m-%d-%H-%M-%S'.  none models the uncaught strptime ValueError. -/
def parseTimestampTok (t : PStr) : Option DateTime :=
  if (pstr ".txt").isSuffixOf t then parseBare (t.take (t.length - 4))
  else parseBare t

/-- The encoded-name head rebuilt at lines 204-205:
assignment + '_' + student + '_attempt_' + timestamp + '_'. -/
def reencodeP (assignment student timestamp : PStr) : PStr :=
  assignment ++ pstr "_" ++ student ++ pstr "_attempt_" ++ timestamp ++ pstr "_"

/-- The renamed output filename for an entry (lines 204-208): strip the
rebuilt head everywhere in the name; when the remainder is exactly '.txt',
synthesize 'attempt_' + timestamp + '.txt'. -/
def renameTarget (assignment student timestamp fname : PStr) : PStr :=
  let nf0 := replaceAll (reencodeP assignment student timestamp) fname
  if nf0 = pstr ".txt" then pstr "attempt_" ++ timestamp ++ nf0 else nf0

/-- An entry of a nested (inner) zip file: its name, and whether the
z.extract archive primitive succeeds on it when attempted. -/
structure NEntry where
  filename : PStr
  extractOk : Bool
deriving DecidableEq

/-- An entry of the top-level container: its name, and the entry list of the
file when it is itself opened as a zip archive (used only when the renamed
file ends in '.zip'). -/
structure ZEntry where
  filename : PStr
  nested : List NEntry
deriving DecidableEq

/-- Junk-path filter of process_zipfile (lines 73-75). -/
def isJunk (f : PStr) : Bool :=
  containsTok (pstr ".idea") f || containsTok (pstr "venv") f ||
    containsTok (pstr "__MACOSX") f

/-- process_zipfile (lines 65-82) on the entries of a nested archive:
attempts every non-junk entry (best effort) and returns whether all attempted
extractions succeeded. -/
def process_zipfile (entries : List NEntry) : Bool :=
  entries.all (fun e => if isJunk e.filename then true else e.extractOk)

/-- Outcome of decoding one entry name (lines 180-188): noMarker models the
uncaught ValueError raised by parts.index('attempt') when the token is
absent (the pivot != -1 test at line 183 is always true, so the skip branch
at lines 186-188 is unreachable); noTimestampTok models the IndexError of
parts[pivot+1]; otherwise the student token before the pivot (Python index
pivot-1, which is the LAST token when pivot = 0) and the raw timestamp token
after it. -/
inductive DecodeResult where
  | noMarker
  | noTimestampTok
  | ok (student timestampTok : PStr)
deriving DecidableEq

def decodeName (fname : PStr) : DecodeResult :=
  let parts := splitChar '_' fname
  match pyListIndex (pstr "attempt") parts with
  | none => DecodeResult.noMarker
  | some pivot =>
    let student := if pivot = 0 then parts.getLastD [] else (parts.get? (pivot - 1)).getD []
    match parts.get? (pivot + 1) with
    | none => DecodeResult.noTimestampTok
    | some ts => DecodeResult.ok student ts

/-- Exceptions that abort the main loop. -/
inductive PyErr where
  | valueErrorIndex
  | indexError
  | valueErrorStrptime
deriving DecidableEq

inductive SkipReason where
  | afterFilter
deriving DecidableEq

/-- Accumulated state of the main processing loop (lines 157-164 and the
mutations in the loop body): the student list, the per-student recorded raw
timestamp token, the created student directories, the per-student produced
filenames, the (student, renamed file) extraction events, the
(destination, zip path) nested-expansion calls, the removed nested zip
files, and the extracted-file count. -/
structure LoopState where
  studentList : List PStr
  timestampDict : List (PStr × PStr)
  dirsCreated : List PStr
  studentFiles : List (PStr × List PStr)
  extracted : List (PStr × PStr)
  nestedCalls : List (PStr × PStr)
  removedFiles : List PStr
  fileCount : Nat
deriving DecidableEq

def initLoopState : LoopState := ⟨[], [], [], [], [], [], [], 0⟩

/-- Append v to the value list of key k in a Python dict of lists. -/
def updateAppend (k : PStr) (v : PStr) : List (PStr × List PStr) → List (PStr × List PStr)
  | [] => []
  | kv :: rest =>
    if kv.1 = k then (kv.1, kv.2 ++ [v]) :: rest else kv :: updateAppend k v rest

/-- First-value association lookup (Python dict indexing). -/
def lookupA (k : PStr) : List (PStr × PStr) → Option PStr
  | [] => none
  | kv :: rest => if kv.1 = k then some kv.2 else lookupA k rest

/-- Loop configuration: the optional '--after' cutoff (the only argument the
loop body consults). -/
structure Config where
  after : Option DateTime
deriving DecidableEq

/-- The skip test at line 196: after is set and after > timestamp_dt. -/
def afterSkips : Option DateTime → DateTime → Bool
  | some a, dt => dtLt dt a
  | none, _ => false

/-- State transformation of one fully processed entry (lines 198-216): on a
first-seen student, register the student, record the raw timestamp token and
create the student directory; extract the entry and rename it to the stripped
name; when the renamed file ends in '.zip', expand it into the directory
named after the file minus the extension and remove the inner zip exactly
when process_zipfile reports success; count the file. -/
def applyEntry (assignment : PStr) (st : LoopState) (e : ZEntry)
    (student timestamp : PStr) : LoopState :=
  let st1 := if student ∈ st.studentList then st else
    { st with studentList := st.studentList ++ [student],
              timestampDict := st.timestampDict ++ [(student, timestamp)],
              dirsCreated := st.dirsCreated ++ [student],
              studentFiles := st.studentFiles ++ [(student, [])] }
  let new_fname := renameTarget assignment student timestamp e.filename
  let st2 := { st1 with extracted := st1.extracted ++ [(student, new_fname)],
                        studentFiles := updateAppend student new_fname st1.studentFiles }
  if lastFourIs (pstr ".zip") new_fname then
    let zpath := student ++ pstr "/" ++ new_fname
    let st3 := { st2 with
      nestedCalls := st2.nestedCalls ++ [(student ++ pstr "/" ++ pyDropLast4 new_fname, zpath)],
      removedFiles := if process_zipfile e.nested then st2.removedFiles ++ [zpath]
                      else st2.removedFiles }
    { st3 with fileCount := st3.fileCount + 1 }
  else
    { st2 with fileCount := st2.fileCount + 1 }

/-- Outcome of the loop body on one entry. -/
inductive StepOutcome where
  | ok (st : LoopState)
  | skipped (why : SkipReason)
  | fatal (e : PyErr)
deriving DecidableEq

/-- Lines 190-216 given the decoded student and raw timestamp token: parse
the token (fatal ValueError when it matches neither accepted layout), apply
the '--after' filter, else apply the entry to the state. -/
def processDecoded (cfg : Config) (assignment : PStr) (st : LoopState)
    (e : ZEntry) (student timestamp : PStr) : StepOutcome :=
  match parseTimestampTok timestamp with
  | none => StepOutcome.fatal PyErr.valueErrorStrptime
  | some ts_dt =>
    if afterSkips cfg.after ts_dt then StepOutcome.skipped SkipReason.afterFilter
    else StepOutcome.ok (applyEntry assignment st e student timestamp)

/-- The whole loop body (lines 178-216) on one entry. -/
def processEntry (cfg : Config) (assignment : PStr) (st : LoopState)
    (e : ZEntry) : StepOutcome :=
  match decodeName e.filename with
  | DecodeResult.noMarker => StepOutcome.fatal PyErr.valueErrorIndex
  | DecodeResult.noTimestampTok => StepOutcome.fatal PyErr.indexError
  | DecodeResult.ok student timestamp => processDecoded cfg assignment st e student timestamp

/-- The main loop over the container's entries: a skipped entry leaves the
state untouched, a fatal outcome aborts the run. -/
def runLoop (cfg : Config) (assignment : PStr) (st : LoopState) :
    List ZEntry → Except PyErr LoopState
  | [] => Except.ok st
  | e :: es =>
    match processEntry cfg assignment st e with
    | StepOutcome.ok st2 => runLoop cfg assignment st2 es
    | StepOutcome.skipped _ => runLoop cfg assignment st es
    | StepOutcome.fatal err => Except.error err

/-- Outcome of copy_feedback_file (lines 36-62) for one student directory.
The directory listing is passed in; readLine gives the (stripped) first line
of a file.  When no listed filename contains 'attempt', attempt_filename
stays '' and open('') raises an uncaught FileNotFoundError; otherwise the
display name is the first line of the first such file with the 'Name: '
label removed, and a feedback artifact is written. -/
inductive FeedbackOutcome where
  | wrote (studentName : PStr)
  | fatalFileNotFound
deriving DecidableEq

def copy_feedback_file (filelist : List PStr) (readLine : PStr → PStr) : FeedbackOutcome :=
  match filelist.find? (fun f => containsTok (pstr "attempt") f) with
  | none => FeedbackOutcome.fatalFileNotFound
  | some f => FeedbackOutcome.wrote (replaceAll (pstr "Name: ") (readLine f))

/-- The feedback stage (lines 217-218): copy_feedback_file per student, with
no exception handling, so a fatalFileNotFound aborts the run and no later
student is processed. -/
def runFeedbackStage (dirListing : PStr → List PStr) (readLine : PStr → PStr) :
    List PStr → Except Unit (List PStr)
  | [] => Except.ok []
  | s :: rest =>
    match copy_feedback_file (dirListing s) readLine with
    | FeedbackOutcome.fatalFileNotFound => Except.error ()
    | FeedbackOutcome.wrote n => (runFeedbackStage dirListing readLine rest).map (fun l => n :: l)

/-- get_dt_submitted (lines 85-88): look the student's raw recorded token up
and parse it with the BARE format only.  none models the uncaught lookup or
strptime failure (for students in the roster the lookup always succeeds, so
none is exactly the strptime ValueError of an unparseable recorded token). -/
def get_dt_submitted (student : PStr) (td : List (PStr × PStr)) : Option DateTime :=
  match lookupA student td with
  | none => none
  | some ts => parseBare ts

/-- One roster line (lines 234-245).  With an earlygrade cutoff the datetime
is computed with NO exception handler, so an unparseable token is a fatal
ValueError; without it, the try/except degrades the line to the placeholder
'XXX XXX XX, XX:XX XX'. -/
inductive RosterLine where
  | egLine (s : PStr)
  | plainLine (s : PStr)
  | timedLine (dt : DateTime) (s : PStr)
  | placeholderLine (s : PStr)
  | fatalValueError
deriving DecidableEq

def rosterLine (earlygrade : Option DateTime) (td : List (PStr × PStr))
    (student : PStr) : RosterLine :=
  match earlygrade with
  | some eg =>
    match get_dt_submitted student td with
    | none => RosterLine.fatalValueError
    | some dt => if dtLt dt eg then RosterLine.egLine student else RosterLine.plainLine student
  | none =>
    match get_dt_submitted student td with
    | none => RosterLine.placeholderLine student
    | some dt => RosterLine.timedLine dt student

/-- The roster-writing loop (lines 231-246) over the (sorted) student list: a
fatal line aborts the whole write. -/
def rosterWrite (earlygrade : Option DateTime) (td : List (PStr × PStr)) :
    List PStr → Except Unit (List RosterLine)
  | [] => Except.ok []
  | s :: rest =>
    match rosterLine earlygrade td s with
    | RosterLine.fatalValueError => Except.error ()
    | line => (rosterWrite earlygrade td rest).map (fun l => line :: l)

/-- The output-root name head derivation at lines 127-130 when the no-Pfx
flag is not set: args.infile.split('_')[1].split('.')[3] + '-'.  none models
the uncaught IndexError of either indexing step. -/
def derivePfx (infile : PStr) : Option PStr :=
  match (splitChar '_' infile).get? 1 with
  | none => none
  | some p2 =>
    match (splitChar '.' p2).get? 3 with
    | none => none
    | some sec => some (sec ++ pstr "-")

/-- Command-line inputs that the modelled stages consult (dates already
parsed; their parse failures abort even earlier, at lines 137-155). -/
structure Args where
  infile : PStr
  noPfx : Bool
  pxArg : Option PStr
  earlygrade : Option DateTime
  after : Option DateTime
deriving DecidableEq

inductive MainErr where
  | indexError
  | loopErr (e : PyErr)
deriving DecidableEq

/-- Externally visible top-level events of a run, in order. -/
inductive MainEv where
  | openContainer
  | mkdirGroup (dir : PStr)
deriving DecidableEq

/-- The orchestrator through the main loop, in source order: name-head
derivation (lines 127-130), ONLY THEN container opening (line 166), group
directory creation from the first entry (lines 169-177, skipped for an empty
container), then the entry loop.  The returned event list shows which
external effects happened before any abort. -/
def runMain (args : Args) (entries : List ZEntry) :
    List MainEv × Except MainErr LoopState :=
  match (if args.noPfx then some ([] : PStr) else derivePfx args.infile) with
  | none => ([], Except.error MainErr.indexError)
  | some pfx =>
    let sfx0 : PStr := match args.pxArg with
      | some p => pstr "-" ++ p
      | none => []
    let sfx : PStr := if args.earlygrade.isSome then pstr "-" ++ pstr "EG" else sfx0
    match entries with
    | [] => ([MainEv.openContainer], Except.ok initLoopState)
    | e0 :: _ =>
      let assignment := (splitChar '_' e0.filename).headD []
      let groupDir := pfx ++ assignment ++ sfx
      match runLoop { after := args.after } assignment initLoopState entries with
      | Except.ok stF => ([MainEv.openContainer, MainEv.mkdirGroup groupDir], Except.ok stF)
      | Except.error pe =>
        ([MainEv.openContainer, MainEv.mkdirGroup groupDir], Except.error (MainErr.loopErr pe))

/- ------------------------------------------------------------------ -/
/- Concrete fixtures (container entries used in concrete runs)        -/
/- ------------------------------------------------------------------ -/

def entAlice : ZEntry := ⟨pstr "HW1_alice_attempt_2021-03-01-10-00-00_main.py", []⟩

def entAlice2 : ZEntry := ⟨pstr "HW1_alice_attempt_2021-03-05-12-00-00_extra.py", []⟩

def entBob : ZEntry := ⟨pstr "HW1_bob_attempt_2021-03-02-11-00-00_main.py", []⟩

def entCarolZip : ZEntry :=
  ⟨pstr "HW1_carol_attempt_2021-03-03-09-00-00_proj.zip", [⟨pstr "main.py", true⟩]⟩

/-- The common marker file: the timestamp token itself carries the '.txt'
extension and there is no original-filename part. -/
def entTxt : ZEntry := ⟨pstr "HW1_alice_attempt_2021-03-01-10-00-00.txt", []⟩

/-- A timestamp token carrying a '.pdf' extension. -/
def entPdfTs : ZEntry := ⟨pstr "HW1_alice_attempt_2021-03-01-10-00-00.pdf_hw.py", []⟩

/-- An empty original filename whose pure-extension remainder is '.pdf'. -/
def entDotPdf : ZEntry := ⟨pstr "HW1_alice_attempt_2021-03-01-10-00-00_.pdf", []⟩

/-- An empty original filename whose pure-extension remainder is '.txt'. -/
def entDotTxt : ZEntry := ⟨pstr "HW1_alice_attempt_2021-03-01-10-00-00_.txt", []⟩

/-- The loop state after processing entAlice from the initial state. -/
def stAlice : LoopState :=
  { studentList := [pstr "alice"],
    timestampDict := [(pstr "alice", pstr "2021-03-01-10-00-00")],
    dirsCreated := [pstr "alice"],
    studentFiles := [(pstr "alice", [pstr "main.py"])],
    extracted := [(pstr "alice", pstr "main.py")],
    nestedCalls := [], removedFiles := [], fileCount := 1 }

/-- The loop state after a run over entAlice and entBob in which the
'--after 2021-03-02-00-00' cutoff skipped entAlice. -/
def stBobOnly : LoopState :=
  { studentList := [pstr "bob"],
    timestampDict := [(pstr "bob", pstr "2021-03-02-11-00-00")],
    dirsCreated := [pstr "bob"],
    studentFiles := [(pstr "bob", [pstr "main.py"])],
    extracted := [(pstr "bob", pstr "main.py")],
    nestedCalls := [], removedFiles := [], fileCount := 1 }

/- ------------------------------------------------------------------ -/
/- Helper lemmas                                                      -/
/- ------------------------------------------------------------------ -/

theorem splitChar_ne_nil (sep : Char) (l : List Char) : splitChar sep l ≠ [] := by
  induction l with
  | nil => simp [splitChar]
  | cons c rest ih =>
    simp only [splitChar]
    cases hs : splitChar sep rest with
    | nil => exact absurd hs ih
    | cons r rs => by_cases hc : c = sep <;> simp [hc]

/-- Splitting a string that starts with a separator-free chunk followed by a
separator yields that chunk in front of the split of the remainder. -/
theorem splitChar_chunk (sep : Char) (chunk rest : List Char) (h : sep ∉ chunk) :
    splitChar sep (chunk ++ sep :: rest) = chunk :: splitChar sep rest := by
  induction chunk with
  | nil =>
    simp only [List.nil_append, splitChar]
    cases hs : splitChar sep rest with
    | nil => exact absurd hs (splitChar_ne_nil sep rest)
    | cons r rs => simp
  | cons c cs ih =>
    have hc : c ≠ sep := by
      intro hcs
      exact h (by simp [hcs])
    have hcs : sep ∉ cs := fun hm => h (List.mem_cons_of_mem _ hm)
    simp only [List.cons_append, splitChar, List.append_eq]
    rw [ih hcs]
    simp [hc]

theorem pyListIndex_eq_none (x : PStr) (l : List PStr) (h : x ∉ l) :
    pyListIndex x l = none := by
  induction l with
  | nil => rfl
  | cons y ys ih =>
    have hy : y ≠ x := by
      intro he
      exact h (by simp [he])
    have hys : x ∉ ys := fun hm => h (List.mem_cons_of_mem _ hm)
    simp [pyListIndex, hy, ih hys]

theorem decodeName_noMarker (fname : PStr) (h : pstr "attempt" ∉ splitChar '_' fname) :
    decodeName fname = DecodeResult.noMarker := by
  unfold decodeName
  simp [pyListIndex_eq_none _ _ h]

theorem processEntry_fatal_of_noMarker (cfg : Config) (assignment : PStr)
    (st : LoopState) (e : ZEntry) (h : pstr "attempt" ∉ splitChar '_' e.filename) :
    processEntry cfg assignment st e = StepOutcome.fatal PyErr.valueErrorIndex := by
  unfold processEntry
  rw [decodeName_noMarker _ h]

theorem processEntry_eq_ok (cfg : Config) (assignment : PStr) (st : LoopState)
    (e : ZEntry) (stu ts : PStr) (dt : DateTime)
    (hd : decodeName e.filename = DecodeResult.ok stu ts)
    (hp : parseTimestampTok ts = some dt)
    (hs : afterSkips cfg.after dt = false) :
    processEntry cfg assignment st e = StepOutcome.ok (applyEntry assignment st e stu ts) := by
  simp [processEntry, hd, processDecoded, hp, hs]

theorem processEntry_eq_skipped (cfg : Config) (assignment : PStr) (st : LoopState)
    (e : ZEntry) (stu ts : PStr) (dt : DateTime)
    (hd : decodeName e.filename = DecodeResult.ok stu ts)
    (hp : parseTimestampTok ts = some dt)
    (hs : afterSkips cfg.after dt = true) :
    processEntry cfg assignment st e = StepOutcome.skipped SkipReason.afterFilter := by
  simp [processEntry, hd, processDecoded, hp, hs]

theorem processEntry_ok_inv (cfg : Config) (assignment : PStr) (st : LoopState)
    (e : ZEntry) (st2 : LoopState)
    (h : processEntry cfg assignment st e = StepOutcome.ok st2) :
    ∃ stu ts dt, decodeName e.filename = DecodeResult.ok stu ts ∧
      parseTimestampTok ts = some dt ∧ afterSkips cfg.after dt = false ∧
      st2 = applyEntry assignment st e stu ts := by
  cases hd : decodeName e.filename with
  | noMarker => simp [processEntry, hd] at h
  | noTimestampTok => simp [processEntry, hd] at h
  | ok stu ts =>
    cases hp : parseTimestampTok ts with
    | none => simp [processEntry, hd, processDecoded, hp] at h
    | some dt =>
      by_cases hs : afterSkips cfg.after dt = true
      · simp [processEntry, hd, processDecoded, hp, hs] at h
      · have hs' : afterSkips cfg.after dt = false := by simpa using hs
        simp [processEntry, hd, processDecoded, hp, hs'] at h
        exact ⟨stu, ts, dt, rfl, hp, hs', h.symm⟩

theorem applyEntry_studentList (assignment : PStr) (st : LoopState) (e : ZEntry)
    (stu ts : PStr) :
    (applyEntry assignment st e stu ts).studentList =
      if stu ∈ st.studentList then st.studentList else st.studentList ++ [stu] := by
  unfold applyEntry
  by_cases h : stu ∈ st.studentList <;> simp [h] <;> split <;> rfl

theorem applyEntry_timestampDict (assignment : PStr) (st : LoopState) (e : ZEntry)
    (stu ts : PStr) :
    (applyEntry assignment st e stu ts).timestampDict =
      if stu ∈ st.studentList then st.timestampDict
      else st.timestampDict ++ [(stu, ts)] := by
  unfold applyEntry
  by_cases h : stu ∈ st.studentList <;> simp [h] <;> split <;> rfl

theorem applyEntry_dirsCreated (assignment : PStr) (st : LoopState) (e : ZEntry)
    (stu ts : PStr) :
    (applyEntry assignment st e stu ts).dirsCreated =
      if stu ∈ st.studentList then st.dirsCreated else st.dirsCreated ++ [stu] := by
  unfold applyEntry
  by_cases h : stu ∈ st.studentList <;> simp [h] <;> split <;> rfl

theorem applyEntry_extracted (assignment : PStr) (st : LoopState) (e : ZEntry)
    (stu ts : PStr) :
    (applyEntry assignment st e stu ts).extracted =
      st.extracted ++ [(stu, renameTarget assignment stu ts e.filename)] := by
  unfold applyEntry
  by_cases h : stu ∈ st.studentList <;> simp [h] <;> split <;> rfl

theorem applyEntry_fileCount (assignment : PStr) (st : LoopState) (e : ZEntry)
    (stu ts : PStr) :
    (applyEntry assignment st e stu ts).fileCount = st.fileCount + 1 := by
  unfold applyEntry
  by_cases h : stu ∈ st.studentList <;> simp [h] <;> split <;> rfl

theorem applyEntry_nestedCalls_zip (assignment : PStr) (st : LoopState) (e : ZEntry)
    (stu ts : PStr)
    (hz : lastFourIs (pstr ".zip") (renameTarget assignment stu ts e.filename) = true) :
    (applyEntry assignment st e stu ts).nestedCalls =
      st.nestedCalls ++
        [(stu ++ pstr "/" ++ pyDropLast4 (renameTarget assignment stu ts e.filename),
          stu ++ pstr "/" ++ renameTarget assignment stu ts e.filename)] := by
  unfold applyEntry
  by_cases h : stu ∈ st.studentList <;> simp [h, hz]

theorem applyEntry_removedFiles_zip (assignment : PStr) (st : LoopState) (e : ZEntry)
    (stu ts : PStr)
    (hz : lastFourIs (pstr ".zip") (renameTarget assignment stu ts e.filename) = true) :
    (applyEntry assignment st e stu ts).removedFiles =
      (if process_zipfile e.nested then
        st.removedFiles ++ [stu ++ pstr "/" ++ renameTarget assignment stu ts e.filename]
      else st.removedFiles) := by
  unfold applyEntry
  by_cases h : stu ∈ st.studentList <;>
    by_cases hq : process_zipfile e.nested <;> simp [h, hz, hq]

theorem runLoop_cons_ok (cfg : Config) (assignment : PStr) (st st2 : LoopState)
    (e : ZEntry) (es : List ZEntry)
    (h : processEntry cfg assignment st e = StepOutcome.ok st2) :
    runLoop cfg assignment st (e :: es) = runLoop cfg assignment st2 es := by
  simp only [runLoop, h]

theorem runLoop_cons_skipped (cfg : Config) (assignment : PStr) (st : LoopState)
    (e : ZEntry) (es : List ZEntry) (r : SkipReason)
    (h : processEntry cfg assignment st e = StepOutcome.skipped r) :
    runLoop cfg assignment st (e :: es) = runLoop cfg assignment st es := by
  simp only [runLoop, h]

theorem process_zipfile_true_iff (entries : List NEntry) :
    process_zipfile entries = true ↔
      ∀ n ∈ entries, isJunk n.filename = false → n.extractOk = true := by
  unfold process_zipfile
  rw [List.all_eq_true]
  constructor
  · intro h n hn hj
    have := h n hn
    rw [hj] at this
    simpa using this
  · intro h n hn
    by_cases hj : isJunk n.filename = true
    · simp [hj]
    · have hj' : isJunk n.filename = false := by simpa using hj
      simp [hj', h n hn hj']

theorem copy_feedback_fatal (filelist : List PStr) (readLine : PStr → PStr)
    (h : ∀ f ∈ filelist, containsTok (pstr "attempt") f = false) :
    copy_feedback_file filelist readLine = FeedbackOutcome.fatalFileNotFound := by
  have hfind : filelist.find? (fun f => containsTok (pstr "attempt") f) = none := by
    rw [List.find?_eq_none]
    intro x hx
    simp [h x hx]
  simp [copy_feedback_file, hfind]

theorem except_map_error {e a b : Type} (f : a → b) (x : e) :
    Except.map f (Except.error x : Except e a) = Except.error x := rfl

theorem except_map_ok {e a b : Type} (f : a → b) (v : a) :
    Except.map f (Except.ok v : Except e a) = Except.ok (f v) := rfl

theorem rosterLine_none_ne_fatal (td : List (PStr × PStr)) (s : PStr) :
    rosterLine none td s ≠ RosterLine.fatalValueError := by
  unfold rosterLine
  cases get_dt_submitted s td <;> simp

/- ------------------------------------------------------------------ -/
/- Claims                                                             -/
/- ------------------------------------------------------------------ -/

/-- Claim C1 (status: code_bug).  The claim says an entry without the marker
token is reported as malformed and skipped.  In the code, parts.index at
line 182 raises an uncaught ValueError for such an entry (list.index never
returns -1, so the skip branch of lines 186-188 is dead), and the run
aborts: the loop body produces the fatal outcome, never the skip. -/
theorem C1_no_marker_is_fatal (cfg : Config) (assignment : PStr) (st : LoopState)
    (e : ZEntry) (h : pstr "attempt" ∉ splitChar '_' e.filename) :
    processEntry cfg assignment st e = StepOutcome.fatal PyErr.valueErrorIndex :=
  processEntry_fatal_of_noMarker cfg assignment st e h

theorem C1_no_marker_is_fatal_witness :
    pstr "attempt" ∉ splitChar '_' (pstr "notes.txt") ∧
      processEntry ⟨none⟩ (pstr "HW1") initLoopState ⟨pstr "notes.txt", []⟩ =
        StepOutcome.fatal PyErr.valueErrorIndex :=
  ⟨by decide,
    C1_no_marker_is_fatal ⟨none⟩ (pstr "HW1") initLoopState ⟨pstr "notes.txt", []⟩ (by decide)⟩

/-- Claim C2 (confirmed): for a valid entry name following the convention
assignment_student_attempt_timestamp_original (the assignment, student and
timestamp tokens free of the delimiter and the first two distinct from the
marker token), decoding the name by splitting on the delimiter and locating
the marker pivot recovers exactly the original student id and raw timestamp
token, and the re-encoded head of lines 204-205 followed by the original
filename rebuilds the entry name. -/
theorem C2_decode_reencode (A s t o fname : PStr)
    (hA : ('_' : Char) ∉ A) (hs : ('_' : Char) ∉ s) (ht : ('_' : Char) ∉ t)
    (hAne : A ≠ pstr "attempt") (hsne : s ≠ pstr "attempt")
    (hname : fname = A ++ pstr "_" ++ s ++ pstr "_attempt_" ++ t ++ pstr "_" ++ o) :
    decodeName fname = DecodeResult.ok s t ∧ fname = reencodeP A s t ++ o := by
  have e1 : pstr "_" = ['_'] := by decide
  have e2 : pstr "_attempt_" = '_' :: (pstr "attempt" ++ ['_']) := by decide
  have hatt : ('_' : Char) ∉ pstr "attempt" := by decide
  have hform : fname = A ++ '_' :: (s ++ '_' :: (pstr "attempt" ++ '_' :: (t ++ '_' :: o))) := by
    rw [hname, e1, e2]
    simp [List.append_assoc]
  have hsplit : splitChar '_' fname =
      A :: s :: pstr "attempt" :: t :: splitChar '_' o := by
    rw [hform, splitChar_chunk _ _ _ hA, splitChar_chunk _ _ _ hs,
      splitChar_chunk _ _ _ hatt, splitChar_chunk _ _ _ ht]
  have hidx : pyListIndex (pstr "attempt")
      (A :: s :: pstr "attempt" :: t :: splitChar '_' o) = some 2 := by
    simp [pyListIndex, hAne, hsne]
  constructor
  · simp [decodeName, hsplit, hidx]
  · rw [hname]
    simp [reencodeP, List.append_assoc]

theorem C2_decode_reencode_witness :
    (('_' : Char) ∉ pstr "HW1" ∧ ('_' : Char) ∉ pstr "alice" ∧
      ('_' : Char) ∉ pstr "2021-03-01-10-00-00" ∧
      pstr "HW1" ≠ pstr "attempt" ∧ pstr "alice" ≠ pstr "attempt" ∧
      pstr "HW1_alice_attempt_2021-03-01-10-00-00_main.py" =
        pstr "HW1" ++ pstr "_" ++ pstr "alice" ++ pstr "_attempt_" ++
          pstr "2021-03-01-10-00-00" ++ pstr "_" ++ pstr "main.py") ∧
    (decodeName (pstr "HW1_alice_attempt_2021-03-01-10-00-00_main.py") =
        DecodeResult.ok (pstr "alice") (pstr "2021-03-01-10-00-00") ∧
      pstr "HW1_alice_attempt_2021-03-01-10-00-00_main.py" =
        reencodeP (pstr "HW1") (pstr "alice") (pstr "2021-03-01-10-00-00") ++ pstr "main.py") :=
  ⟨⟨by decide, by decide, by decide, by decide, by decide, by decide⟩,
    C2_decode_reencode (pstr "HW1") (pstr "alice") (pstr "2021-03-01-10-00-00")
      (pstr "main.py") (pstr "HW1_alice_attempt_2021-03-01-10-00-00_main.py")
      (by decide) (by decide) (by decide) (by decide) (by decide) (by decide)⟩

/-- Claim C3 (confirmed): a second (or later) entry for an already-seen
student changes neither the student list, nor the recorded timestamp
dictionary, nor the set of created student directories — registration,
timestamp recording and makedirs (lines 198-202) run only for unseen
students. -/
theorem C3_grouping_idempotent (cfg : Config) (assignment : PStr) (st st2 : LoopState)
    (e : ZEntry) (stu ts : PStr)
    (hd : decodeName e.filename = DecodeResult.ok stu ts)
    (hin : stu ∈ st.studentList)
    (hok : processEntry cfg assignment st e = StepOutcome.ok st2) :
    st2.studentList = st.studentList ∧ st2.timestampDict = st.timestampDict ∧
      st2.dirsCreated = st.dirsCreated := by
  obtain ⟨stu2, ts2, dt, hd2, hp2, hs2, hq⟩ := processEntry_ok_inv cfg assignment st e st2 hok
  have hinj := hd.symm.trans hd2
  injection hinj with h1 h2
  subst h1
  subst h2
  rw [hq, applyEntry_studentList, applyEntry_timestampDict, applyEntry_dirsCreated]
  simp [hin]

theorem C3_grouping_idempotent_witness :
    decodeName entAlice2.filename =
        DecodeResult.ok (pstr "alice") (pstr "2021-03-05-12-00-00") ∧
      pstr "alice" ∈ stAlice.studentList ∧
      (let st2 := applyEntry (pstr "HW1") stAlice entAlice2 (pstr "alice")
        (pstr "2021-03-05-12-00-00");
        processEntry ⟨none⟩ (pstr "HW1") stAlice entAlice2 = StepOutcome.ok st2 ∧
          st2.studentList = stAlice.studentList ∧
          st2.timestampDict = stAlice.timestampDict ∧
          st2.dirsCreated = stAlice.dirsCreated) :=
  ⟨by decide, by decide,
    ⟨by decide,
      C3_grouping_idempotent ⟨none⟩ (pstr "HW1") stAlice
        (applyEntry (pstr "HW1") stAlice entAlice2 (pstr "alice") (pstr "2021-03-05-12-00-00"))
        entAlice2 (pstr "alice") (pstr "2021-03-05-12-00-00")
        (by decide) (by decide) (by decide)⟩⟩

/-- Claim C4 (confirmed): with a 'submitted after' cutoff configured, an
entry whose parsed timestamp strictly precedes the cutoff is skipped
entirely — the loop body yields the skip outcome and the loop continues on
the unchanged state, so no bucket, directory, extraction or count change can
come from it — and a student all of whose entries precede the cutoff is
absent from the final student list (hence from the roster), the created
directories and the extraction events. -/
theorem C4_after_filter :
    (∀ cfg a assignment st e stu ts dt es, cfg.after = some a →
      decodeName e.filename = DecodeResult.ok stu ts →
      parseTimestampTok ts = some dt → dtLt dt a = true →
      processEntry cfg assignment st e = StepOutcome.skipped SkipReason.afterFilter ∧
        runLoop cfg assignment st (e :: es) = runLoop cfg assignment st es) ∧
    (∀ cfg a assignment st es stF s, cfg.after = some a →
      (∀ e ∈ es, ∀ stu ts, decodeName e.filename = DecodeResult.ok stu ts → stu = s →
        ∃ dt, parseTimestampTok ts = some dt ∧ dtLt dt a = true) →
      s ∉ st.studentList → s ∉ st.dirsCreated → (∀ f, (s, f) ∉ st.extracted) →
      runLoop cfg assignment st es = Except.ok stF →
      s ∉ stF.studentList ∧ s ∉ stF.dirsCreated ∧ ∀ f, (s, f) ∉ stF.extracted) := by
  constructor
  · intro cfg a assignment st e stu ts dt es ha hd hp hlt
    have hskip : afterSkips cfg.after dt = true := by simp [afterSkips, ha, hlt]
    have h1 := processEntry_eq_skipped cfg assignment st e stu ts dt hd hp hskip
    exact ⟨h1, runLoop_cons_skipped cfg assignment st e es SkipReason.afterFilter h1⟩
  · intro cfg a assignment st es
    induction es generalizing st with
    | nil =>
      intro stF s ha hes hsl hdc hex hrun
      simp only [runLoop] at hrun
      injection hrun with hst
      subst hst
      exact ⟨hsl, hdc, hex⟩
    | cons e es ih =>
      intro stF s ha hes hsl hdc hex hrun
      cases hpe : processEntry cfg assignment st e with
      | fatal err =>
        rw [runLoop] at hrun
        rw [hpe] at hrun
        exact absurd hrun (by simp)
      | skipped r =>
        rw [runLoop_cons_skipped cfg assignment st e es r hpe] at hrun
        exact ih st stF s ha (fun x hx => hes x (List.mem_cons_of_mem _ hx)) hsl hdc hex hrun
      | ok st2 =>
        rw [runLoop_cons_ok cfg assignment st st2 e es hpe] at hrun
        obtain ⟨stu, ts, dt, hd2, hp2, hs2, hq⟩ :=
          processEntry_ok_inv cfg assignment st e st2 hpe
        by_cases hstu : stu = s
        · subst hstu
          obtain ⟨dt2, hp3, hlt2⟩ := hes e (List.mem_cons_self _ _) stu ts hd2 rfl
          rw [hp2] at hp3
          injection hp3 with hdt
          subst hdt
          rw [ha] at hs2
          simp only [afterSkips] at hs2
          rw [hs2] at hlt2
          exact absurd hlt2 (by simp)
        · have hsl2 : s ∉ st2.studentList := by
            rw [hq, applyEntry_studentList]
            by_cases hm : stu ∈ st.studentList <;> simp [hm, hsl]
            intro hc
            exact hstu hc.symm
          have hdc2 : s ∉ st2.dirsCreated := by
            rw [hq, applyEntry_dirsCreated]
            by_cases hm : stu ∈ st.studentList <;> simp [hm, hdc]
            intro hc
            exact hstu hc.symm
          have hex2 : ∀ f, (s, f) ∉ st2.extracted := by
            intro f
            rw [hq, applyEntry_extracted]
            simp [hex f]
            intro hc
            exact absurd hc.symm hstu
          exact ih st2 stF s ha (fun x hx => hes x (List.mem_cons_of_mem _ hx)) hsl2 hdc2 hex2 hrun

theorem C4_after_filter_witness :
    (processEntry ⟨some ⟨2021, 3, 2, 0, 0, 0⟩⟩ (pstr "HW1") initLoopState entAlice =
        StepOutcome.skipped SkipReason.afterFilter ∧
      runLoop ⟨some ⟨2021, 3, 2, 0, 0, 0⟩⟩ (pstr "HW1") initLoopState [entAlice, entBob] =
        runLoop ⟨some ⟨2021, 3, 2, 0, 0, 0⟩⟩ (pstr "HW1") initLoopState [entBob]) ∧
    (pstr "alice" ∉ stBobOnly.studentList ∧ pstr "alice" ∉ stBobOnly.dirsCreated ∧
      (pstr "alice", pstr "main.py") ∉ stBobOnly.extracted) := by
  constructor
  · exact C4_after_filter.1 ⟨some ⟨2021, 3, 2, 0, 0, 0⟩⟩ ⟨2021, 3, 2, 0, 0, 0⟩
      (pstr "HW1") initLoopState entAlice (pstr "alice") (pstr "2021-03-01-10-00-00")
      ⟨2021, 3, 1, 10, 0, 0⟩ [entBob] rfl (by decide) (by decide) (by decide)
  · have hmain := C4_after_filter.2 ⟨some ⟨2021, 3, 2, 0, 0, 0⟩⟩ ⟨2021, 3, 2, 0, 0, 0⟩
      (pstr "HW1") initLoopState [entAlice, entBob] stBobOnly (pstr "alice") rfl
      ?hes (by decide) (by decide) (fun f => by simp [initLoopState]) (by decide)
    case hes =>
      intro e he stu ts hdec hstu
      have hmem : e = entAlice ∨ e = entBob := by simpa using he
      rcases hmem with h | h
      · subst h
        have hA : decodeName entAlice.filename =
            DecodeResult.ok (pstr "alice") (pstr "2021-03-01-10-00-00") := by decide
        have := hA.symm.trans hdec
        injection this with h1 h2
        subst h1
        subst h2
        exact ⟨⟨2021, 3, 1, 10, 0, 0⟩, by decide, by decide⟩
      · subst h
        have hB : decodeName entBob.filename =
            DecodeResult.ok (pstr "bob") (pstr "2021-03-02-11-00-00") := by decide
        have := hB.symm.trans hdec
        injection this with h1 h2
        subst h1
        exact absurd hstu (by decide)
    exact ⟨hmain.1, hmain.2.1, hmain.2.2 (pstr "main.py")⟩

/-- Claim C5 (confirmed): when the renamed extracted file ends in '.zip',
the loop body nests a process_zipfile call whose destination is the file
name minus its four-character extension; the inner zip is removed exactly
when process_zipfile succeeds, it is retained when any attempted (non-junk)
entry fails to extract, and in both cases the loop body returns a normal
(non-fatal) outcome, so the outer run continues.  process_zipfile succeeds
precisely when every non-junk entry of the nested archive extracts. -/
theorem C5_nested_zip (cfg : Config) (assignment : PStr) (st : LoopState)
    (e : ZEntry) (stu ts : PStr) (dt : DateTime)
    (hd : decodeName e.filename = DecodeResult.ok stu ts)
    (hp : parseTimestampTok ts = some dt)
    (hs : afterSkips cfg.after dt = false)
    (hz : lastFourIs (pstr ".zip") (renameTarget assignment stu ts e.filename) = true) :
    processEntry cfg assignment st e =
        StepOutcome.ok (applyEntry assignment st e stu ts) ∧
      (applyEntry assignment st e stu ts).nestedCalls =
        st.nestedCalls ++
          [(stu ++ pstr "/" ++ pyDropLast4 (renameTarget assignment stu ts e.filename),
            stu ++ pstr "/" ++ renameTarget assignment stu ts e.filename)] ∧
      (process_zipfile e.nested = true →
        (applyEntry assignment st e stu ts).removedFiles =
          st.removedFiles ++ [stu ++ pstr "/" ++ renameTarget assignment stu ts e.filename]) ∧
      (process_zipfile e.nested = false →
        (applyEntry assignment st e stu ts).removedFiles = st.removedFiles) ∧
      (process_zipfile e.nested = true ↔
        ∀ n ∈ e.nested, isJunk n.filename = false → n.extractOk = true) := by
  refine ⟨processEntry_eq_ok cfg assignment st e stu ts dt hd hp hs,
    applyEntry_nestedCalls_zip assignment st e stu ts hz, ?_, ?_,
    process_zipfile_true_iff e.nested⟩
  · intro hq
    rw [applyEntry_removedFiles_zip assignment st e stu ts hz]
    simp [hq]
  · intro hq
    rw [applyEntry_removedFiles_zip assignment st e stu ts hz]
    simp [hq]

theorem C5_nested_zip_witness :
    processEntry ⟨none⟩ (pstr "HW1") initLoopState entCarolZip =
        StepOutcome.ok (applyEntry (pstr "HW1") initLoopState entCarolZip
          (pstr "carol") (pstr "2021-03-03-09-00-00")) ∧
      (applyEntry (pstr "HW1") initLoopState entCarolZip
          (pstr "carol") (pstr "2021-03-03-09-00-00")).nestedCalls =
        initLoopState.nestedCalls ++
          [(pstr "carol" ++ pstr "/" ++ pyDropLast4 (renameTarget (pstr "HW1")
              (pstr "carol") (pstr "2021-03-03-09-00-00") entCarolZip.filename),
            pstr "carol" ++ pstr "/" ++ renameTarget (pstr "HW1")
              (pstr "carol") (pstr "2021-03-03-09-00-00") entCarolZip.filename)] ∧
      (applyEntry (pstr "HW1") initLoopState entCarolZip
          (pstr "carol") (pstr "2021-03-03-09-00-00")).removedFiles =
        initLoopState.removedFiles ++
          [pstr "carol" ++ pstr "/" ++ renameTarget (pstr "HW1")
            (pstr "carol") (pstr "2021-03-03-09-00-00") entCarolZip.filename] := by
  have h := C5_nested_zip ⟨none⟩ (pstr "HW1") initLoopState entCarolZip
    (pstr "carol") (pstr "2021-03-03-09-00-00") ⟨2021, 3, 3, 9, 0, 0⟩
    (by decide) (by decide) (by decide) (by decide)
  exact ⟨h.1, h.2.1, h.2.2.1 (by decide)⟩

/-- Claim C6 (status: code_bug).  The claim says a student directory with no
marker file is surfaced as a defect while the run continues.  In the code,
copy_feedback_file leaves attempt_filename as '' and open('') raises an
uncaught FileNotFoundError, so the feedback stage aborts the whole run as
soon as it reaches such a student, and the remaining students are not
processed. -/
theorem C6_missing_marker_crashes (dirListing : PStr → List PStr)
    (readLine : PStr → PStr) (students : List PStr) (s : PStr)
    (hmem : s ∈ students)
    (hnone : ∀ f ∈ dirListing s, containsTok (pstr "attempt") f = false) :
    runFeedbackStage dirListing readLine students = Except.error () := by
  induction students with
  | nil => cases hmem
  | cons s0 rest ih =>
    cases hw : copy_feedback_file (dirListing s0) readLine with
    | fatalFileNotFound => simp [runFeedbackStage, hw]
    | wrote n =>
      have hs0 : s ∈ rest := by
        rcases List.mem_cons.mp hmem with h | h
        · subst h
          rw [copy_feedback_fatal (dirListing s) readLine hnone] at hw
          cases hw
        · exact h
      simp [runFeedbackStage, hw, ih hs0, except_map_error]

theorem C6_missing_marker_crashes_witness :
    runFeedbackStage (fun _ => [pstr "notes.txt"]) (fun _ => ([] : PStr))
        [pstr "alice"] = Except.error () :=
  C6_missing_marker_crashes (fun _ => [pstr "notes.txt"]) (fun _ => ([] : PStr))
    [pstr "alice"] (pstr "alice") (by decide) (by decide)

/-- Claim C7 counterexample (closed): the loop accepts the marker entry
whose timestamp token is '2021-03-01-10-00-00.txt' and records that raw
token, get_dt_submitted cannot re-parse it at roster time, and with an
early-grade cutoff configured the roster line is the uncaught ValueError,
which aborts the roster write — contradicting the claim's 'regardless of
whether the early-grade cutoff is configured'. -/
theorem C7_earlygrade_aborts_counterexample :
    (match processEntry ⟨none⟩ (pstr "HW1") initLoopState entTxt with
      | StepOutcome.ok s2 => s2.timestampDict
      | _ => []) = [(pstr "alice", pstr "2021-03-01-10-00-00.txt")] ∧
    rosterLine (some ⟨2021, 3, 5, 0, 0, 0⟩)
        [(pstr "alice", pstr "2021-03-01-10-00-00.txt")] (pstr "alice") =
      RosterLine.fatalValueError ∧
    rosterWrite (some ⟨2021, 3, 5, 0, 0, 0⟩)
        [(pstr "alice", pstr "2021-03-01-10-00-00.txt")] [pstr "alice"] =
      Except.error () := by
  refine ⟨by decide, by decide, ?_⟩
  have h : rosterLine (some ⟨2021, 3, 5, 0, 0, 0⟩)
      [(pstr "alice", pstr "2021-03-01-10-00-00.txt")] (pstr "alice") =
      RosterLine.fatalValueError := by decide
  simp [rosterWrite, h]

/-- Claim C7 as amended (corrected): when the early-grade cutoff is NOT
configured, a student whose recorded timestamp is unparseable gets the
placeholder line and the roster write never aborts; with the cutoff
configured the datetime is computed without a handler, so an unparseable
timestamp aborts the write (see the counterexample). -/
theorem C7_placeholder_without_earlygrade (td : List (PStr × PStr)) (s : PStr)
    (students : List PStr) :
    (get_dt_submitted s td = none → rosterLine none td s = RosterLine.placeholderLine s) ∧
    rosterWrite none td students ≠ Except.error () := by
  constructor
  · intro h
    simp [rosterLine, h]
  · induction students with
    | nil => simp [rosterWrite]
    | cons s0 rest ih =>
      cases hl : rosterLine none td s0 with
      | fatalValueError => exact absurd hl (rosterLine_none_ne_fatal td s0)
      | egLine x =>
        cases hr : rosterWrite none td rest with
        | error u => exact absurd hr (by simpa using ih)
        | ok l => simp [rosterWrite, hl, hr, except_map_ok]
      | plainLine x =>
        cases hr : rosterWrite none td rest with
        | error u => exact absurd hr (by simpa using ih)
        | ok l => simp [rosterWrite, hl, hr, except_map_ok]
      | timedLine dt x =>
        cases hr : rosterWrite none td rest with
        | error u => exact absurd hr (by simpa using ih)
        | ok l => simp [rosterWrite, hl, hr, except_map_ok]
      | placeholderLine x =>
        cases hr : rosterWrite none td rest with
        | error u => exact absurd hr (by simpa using ih)
        | ok l => simp [rosterWrite, hl, hr, except_map_ok]

theorem C7_placeholder_without_earlygrade_witness :
    rosterLine none [(pstr "alice", pstr "2021-03-01-10-00-00.txt")] (pstr "alice") =
        RosterLine.placeholderLine (pstr "alice") ∧
      rosterWrite none [(pstr "alice", pstr "2021-03-01-10-00-00.txt")]
        [pstr "alice"] ≠ Except.error () :=
  ⟨(C7_placeholder_without_earlygrade
      [(pstr "alice", pstr "2021-03-01-10-00-00.txt")] (pstr "alice") [pstr "alice"]).1
      (by decide),
    (C7_placeholder_without_earlygrade
      [(pstr "alice", pstr "2021-03-01-10-00-00.txt")] (pstr "alice") [pstr "alice"]).2⟩

/-- Claim C8 counterexample (closed): the timestamp token
'2021-03-01-10-00-00.pdf' matches the claim's second layout (bare value
suffixed with a file extension) but the code only special-cases '.txt', so
strptime with the bare format fails and the loop body is the fatal
ValueError — refuting 'for any extension'. -/
theorem C8_pdf_extension_counterexample :
    parseTimestampTok (pstr "2021-03-01-10-00-00.pdf") = none ∧
      processEntry ⟨none⟩ (pstr "HW1") initLoopState entPdfTs =
        StepOutcome.fatal PyErr.valueErrorStrptime := by decide

/-- Claim C8 as amended (corrected): timestamp parsing accepts exactly two
layouts — the bare format, and the bare format suffixed with the literal
extension '.txt' (not an arbitrary extension) — and a token matching neither
layout makes the loop body fatal, aborting the run. -/
theorem C8_two_layouts_txt_only (t : PStr) :
    ((parseTimestampTok t).isSome = true ↔
      (((pstr ".txt").isSuffixOf t = false ∧ (parseBare t).isSome = true) ∨
        ((pstr ".txt").isSuffixOf t = true ∧
          (parseBare (t.take (t.length - 4))).isSome = true))) ∧
    (∀ cfg assignment st e stu,
      decodeName e.filename = DecodeResult.ok stu t →
      parseTimestampTok t = none →
      processEntry cfg assignment st e = StepOutcome.fatal PyErr.valueErrorStrptime) := by
  constructor
  · by_cases hsuf : (pstr ".txt").isSuffixOf t = true
    · simp [parseTimestampTok, hsuf]
    · have h2 : (pstr ".txt").isSuffixOf t = false := Bool.eq_false_iff.mpr hsuf
      simp [parseTimestampTok, h2]
  · intro cfg assignment st e stu hd hnone
    simp [processEntry, hd, processDecoded, hnone]

theorem C8_two_layouts_txt_only_witness :
    (parseTimestampTok (pstr "2021-03-01-10-00-00.txt")).isSome = true ∧
      processEntry ⟨none⟩ (pstr "HW1") initLoopState entPdfTs =
        StepOutcome.fatal PyErr.valueErrorStrptime :=
  ⟨(C8_two_layouts_txt_only (pstr "2021-03-01-10-00-00.txt")).1.mpr
      (Or.inr ⟨by decide, by decide⟩),
    (C8_two_layouts_txt_only (pstr "2021-03-01-10-00-00.pdf")).2 ⟨none⟩ (pstr "HW1")
      initLoopState entPdfTs (pstr "alice") (by decide) (by decide)⟩

/-- Claim C9 counterexample (closed): for the entry whose original filename
is empty after stripping the encoded head and whose pure-extension remainder
is '.pdf', the loop keeps '.pdf' as the renamed output file instead of the
synthesized attempt_(timestamp).txt name: only the remainder '.txt' is
special-cased at lines 206-207. -/
theorem C9_pdf_remainder_counterexample :
    replaceAll (reencodeP (pstr "HW1") (pstr "alice") (pstr "2021-03-01-10-00-00"))
        (pstr "HW1_alice_attempt_2021-03-01-10-00-00_.pdf") = pstr ".pdf" ∧
      (match processEntry ⟨none⟩ (pstr "HW1") initLoopState entDotPdf with
        | StepOutcome.ok s2 => s2.extracted
        | _ => []) = [(pstr "alice", pstr ".pdf")] := by decide

/-- Claim C9 as amended (corrected): only when the remainder left after
stripping the encoded head is exactly '.txt' does the processed entry
produce the synthesized file name 'attempt_' + timestamp + '.txt'; other
pure-extension remainders are kept verbatim (see the counterexample). -/
theorem C9_txt_remainder_synthesized (cfg : Config) (assignment : PStr)
    (st st2 : LoopState) (e : ZEntry) (stu ts : PStr)
    (hd : decodeName e.filename = DecodeResult.ok stu ts)
    (hstrip : replaceAll (reencodeP assignment stu ts) e.filename = pstr ".txt")
    (hok : processEntry cfg assignment st e = StepOutcome.ok st2) :
    st2.extracted = st.extracted ++ [(stu, pstr "attempt_" ++ ts ++ pstr ".txt")] := by
  obtain ⟨stu2, ts2, dt, hd2, hp2, hs2, hq⟩ := processEntry_ok_inv cfg assignment st e st2 hok
  have hinj := hd.symm.trans hd2
  injection hinj with h1 h2
  subst h1
  subst h2
  rw [hq, applyEntry_extracted]
  simp [renameTarget, hstrip]

theorem C9_txt_remainder_synthesized_witness :
    (applyEntry (pstr "HW1") initLoopState entDotTxt (pstr "alice")
        (pstr "2021-03-01-10-00-00")).extracted =
      initLoopState.extracted ++
        [(pstr "alice", pstr "attempt_" ++ pstr "2021-03-01-10-00-00" ++ pstr ".txt")] :=
  C9_txt_remainder_synthesized ⟨none⟩ (pstr "HW1") initLoopState
    (applyEntry (pstr "HW1") initLoopState entDotTxt (pstr "alice")
      (pstr "2021-03-01-10-00-00"))
    entDotTxt (pstr "alice") (pstr "2021-03-01-10-00-00")
    (by decide) (by decide) (by decide)

/-- Claim C10 (confirmed): with the derived-name-head flag active (noPfx
unset), an input filename with fewer than two '_'-separated parts, or whose
second '_'-part has fewer than four '.'-separated subparts, makes the
derivation at lines 127-130 raise an uncaught IndexError: the run ends with
that error and an empty event list, i.e. before the container is opened and
before any output directory is created. -/
theorem C10_infile_shape_abort (args : Args) (entries : List ZEntry)
    (hnp : args.noPfx = false)
    (hbad : (splitChar '_' args.infile).length < 2 ∨
      (∀ p2, (splitChar '_' args.infile).get? 1 = some p2 →
        (splitChar '.' p2).length < 4)) :
    runMain args entries = ([], Except.error MainErr.indexError) := by
  have hdp : derivePfx args.infile = none := by
    unfold derivePfx
    cases h1 : (splitChar '_' args.infile).get? 1 with
    | none => rfl
    | some p2 =>
      rcases hbad with hlen | hsub
      · exfalso
        have hn : (splitChar '_' args.infile).get? 1 = none :=
          List.get?_eq_none.mpr (by omega)
        rw [h1] at hn
        cases hn
      · have hlt := hsub p2 h1
        have hn : (splitChar '.' p2).get? 3 = none := List.get?_eq_none.mpr (by omega)
        rw [List.get?_eq_getElem?] at hn
        simp [hn]
  simp [runMain, hnp, hdp]

theorem C10_infile_shape_abort_witness :
    (splitChar '_' (pstr "gradebook.zip")).length < 2 ∧
      runMain ⟨pstr "gradebook.zip", false, none, none, none⟩ [entAlice] =
        ([], Except.error MainErr.indexError) :=
  ⟨by decide,
    C10_infile_shape_abort ⟨pstr "gradebook.zip", false, none, none, none⟩ [entAlice]
      rfl (Or.inl (by decide))⟩
